import Mathlib

/-!
Shallow embedding of the ratelimit_meter crate (GCRA and leaky-bucket
rate-limiting algorithms, the threadsafe state wrapper, the builders and
the keyed rate limiter) together with theorems checking the crate's
specification against the code.

Modelling conventions:
* a Rust `std::time::Duration` is a non-negative count of nanoseconds,
  modelled as `Nat`; its arithmetic in the embedded code never underflows
  where the source would panic, and `Duration / u32` is floor division at
  nanosecond resolution.
* a Rust `std::time::Instant` is modelled as `Int`, an unbounded signed
  nanosecond offset from an arbitrary epoch. Rust `Instant + Duration`,
  `Instant - Duration` and `Instant - Instant` become total integer
  arithmetic; the embedded code only forms `Instant - Instant` differences
  that are non-negative on the paths where the source would otherwise
  panic, and `Int.toNat` makes that explicit.
* The lock-free CAS loops of the source (crossbeam epochs in
  `algorithms/gcra.rs` and `algorithms/leaky_bucket.rs`) and the mutex of
  `thread_safety/mod.rs` are modelled by their sequential semantics: an
  atomic read-decide-maybe-write step `measureAndReplace` on an explicit
  state value.
-/

deriving instance DecidableEq for Except

namespace RatelimitMeter

/-- Embeds `NonConformance` from `src/lib.rs`: the rejection outcome of a
single-cell check, carrying the instant of the check and the minimum time
to wait from that instant. -/
structure NonConformance where
  t0 : Int
  min_time : Nat
  deriving Repr, DecidableEq

/-- Embeds `NonConformance::earliest_possible` (`src/lib.rs`):
`self.t0 + self.min_time`. -/
def NonConformance.earliest_possible (nc : NonConformance) : Int :=
  nc.t0 + (nc.min_time : Int)

/-- Embeds `NonConformance::wait_time_from` (`src/lib.rs`): the remaining
wait measured from `f`, saturating at zero once `f` has passed the
earliest possible instant. -/
def NonConformance.wait_time_from (nc : NonConformance) (f : Int) : Nat :=
  if f = nc.t0 then nc.min_time
  else if f < nc.t0 + (nc.min_time : Int) then (nc.t0 + (nc.min_time : Int) - f).toNat
  else 0

/-- Embeds `NegativeMultiDecision` from `src/lib.rs`: the negative outcome
of a batch check. -/
inductive NegativeMultiDecision where
  | batchNonConforming (n : Nat) (nc : NonConformance)
  | insufficientCapacity (n : Nat)
  deriving Repr, DecidableEq

/-- Embeds `ThreadsafeWrapper::measure_and_replace` from
`src/thread_safety/mod.rs`: under the state mutex, run the decision
closure on the current state and commit the replacement state if and only
if the closure produced one. The final state is returned explicitly. -/
def measureAndReplace {S E R : Type} (s : S) (f : S → Except E R × Option S) :
    Except E R × S :=
  let r := f s
  match r.2 with
  | some nd => (r.1, nd)
  | none => (r.1, s)

/-- Embeds the parameter fields of the `GCRA` struct from
`src/algorithms/gcra.rs`: `t` is the per-cell emission interval, `tau`
the burst tolerance. -/
structure GCRAParams where
  t : Nat
  tau : Nat
  deriving Repr, DecidableEq

/-- Embeds the mutable part of the `GCRA` struct (the `tat` field of
`src/algorithms/gcra.rs`): the theoretical arrival time, `none` while the
bucket is fresh. -/
abbrev GCRAState := Option Int

/-- Embeds `GCRA::test_and_update` (`src/algorithms/gcra.rs`, the
single-cell `DeciderImpl`): read the stored tat (defaulting to the check
time on a fresh bucket), reject when the check time is earlier than
`tat - tau`, otherwise store `max(tat, t0) + t`. The returned `Option`
is the replacement state committed by the CAS (reject paths return before
the CAS, hence `none`). -/
def GCRA.test_and_update (p : GCRAParams) (s : GCRAState) (t0 : Int) :
    Except NonConformance Unit × Option GCRAState :=
  let tat := s.getD t0
  if t0 < tat - (p.tau : Int) then
    (Except.error ⟨t0, (tat - t0).toNat⟩, none)
  else
    (Except.ok (), some (some (max tat t0 + (p.t : Int))))

/-- Embeds `GCRA::test_n_and_update` (`src/algorithms/gcra.rs`, the
`MultiDeciderImpl`): the batch extension. A batch of `n` cells uses the
effective arrival time `tat + t*(n-1)` (after a capacity pre-check
`t*(n-1) + t > tau`), and on success adds `t*n` (`t` for `n = 1`, nothing
for `n = 0`, where the effective tat is reset to `t0`). -/
def GCRA.test_n_and_update (p : GCRAParams) (s : GCRAState) (n : Nat) (t0 : Int) :
    Except NegativeMultiDecision Unit × Option GCRAState :=
  let tat0 := s.getD t0
  let tatE : Except NegativeMultiDecision Int :=
    if n = 0 then Except.ok t0
    else if n = 1 then Except.ok tat0
    else
      let weight := p.t * (n - 1)
      if weight + p.t > p.tau then Except.error (.insufficientCapacity n)
      else Except.ok (tat0 + (weight : Int))
  match tatE with
  | Except.error e => (Except.error e, none)
  | Except.ok tat =>
    if t0 < tat - (p.tau : Int) then
      (Except.error (.batchNonConforming n ⟨t0, (tat - t0).toNat⟩), none)
    else
      let additional_weight : Nat := if n = 0 then 0 else if n = 1 then p.t else p.t * n
      (Except.ok (), some (some (max tat t0 + (additional_weight : Int))))

/-- Embeds a single-cell `check_at` on a direct GCRA rate limiter:
`GCRA::test_and_update` run through the state cell, yielding the decision
and the state after the call. -/
def GCRA.check_at (p : GCRAParams) (s : GCRAState) (t0 : Int) :
    Except NonConformance Unit × GCRAState :=
  measureAndReplace s (fun st => GCRA.test_and_update p st t0)

/-- Embeds a batch `check_n_at` on a direct GCRA rate limiter:
`GCRA::test_n_and_update` run through the state cell, yielding the
decision and the state after the call. -/
def GCRA.check_n_at (p : GCRAParams) (s : GCRAState) (n : Nat) (t0 : Int) :
    Except NegativeMultiDecision Unit × GCRAState :=
  measureAndReplace s (fun st => GCRA.test_n_and_update p st n t0)

/-- Embeds `Decision` (the outcome type of the leaky bucket's
`test_n_and_update` in `src/algorithms/leaky_bucket.rs`): `yes` for a
conforming batch, `no` with the approximate wait duration otherwise. -/
inductive Decision where
  | yes
  | no (wait : Nat)
  deriving Repr, DecidableEq

/-- Embeds the `ErrorKind` cases of `src/errors/mod.rs` that the embedded
code can produce. -/
inductive ErrorKind where
  | inconsistentCapacity (capacity : Nat) (weight : Nat)
  | insufficientCapacity (n : Nat)
  deriving Repr, DecidableEq

/-- Embeds the parameter fields of the `LeakyBucket` struct from
`src/algorithms/leaky_bucket.rs`: `full` is the drain time of the bucket
and `token_interval` the per-cell fill. -/
structure LeakyBucketParams where
  full : Nat
  token_interval : Nat
  deriving Repr, DecidableEq

/-- Embeds `BucketState` from `src/algorithms/leaky_bucket.rs`: the
current fill level and the time of the last update (`none` while the
bucket has never been successfully checked). -/
structure BucketState where
  level : Nat
  last_update : Option Int
  deriving Repr, DecidableEq

/-- Embeds `LeakyBucket::new` (`src/algorithms/leaky_bucket.rs`): reject a
zero capacity, otherwise derive `token_interval = per_duration / capacity`
(floor division at nanosecond resolution) and `full = per_duration`. -/
def LeakyBucket.new (capacity : Nat) (per_duration : Nat) :
    Except ErrorKind LeakyBucketParams :=
  if capacity = 0 then Except.error (.inconsistentCapacity capacity 0)
  else Except.ok ⟨per_duration, per_duration / capacity⟩

/-- Embeds `LeakyBucket::test_n_and_update` (`src/algorithms/leaky_bucket.rs`):
pre-check `token_interval * n` against the bucket capacity, then drip the
level down by the time elapsed since the last update (clamping the check
time to never lie before the last update) and admit the batch iff the
dripped level plus the batch weight fits. The returned `Option` is the
replacement state committed by the CAS (negative paths return before the
CAS, hence `none`). -/
def LeakyBucket.test_n_and_update (p : LeakyBucketParams) (s : BucketState)
    (n : Nat) (t0 : Int) : Except ErrorKind Decision × Option BucketState :=
  let weight := p.token_interval * n
  if weight > p.full then (Except.error (.insufficientCapacity n), none)
  else
    let last := s.last_update.getD t0
    let t0c := max t0 last
    let newLevel := s.level - min (t0c - last).toNat s.level
    if weight + newLevel ≤ p.full then
      (Except.ok Decision.yes, some ⟨newLevel + weight, some t0c⟩)
    else
      (Except.ok (Decision.no (weight + newLevel - p.full)), none)

/-- Embeds a batch `check_n_at` on a direct leaky-bucket rate limiter:
`LeakyBucket::test_n_and_update` run through the state cell, yielding the
decision and the state after the call. -/
def LeakyBucket.check_n_at (p : LeakyBucketParams) (s : BucketState)
    (n : Nat) (t0 : Int) : Except ErrorKind Decision × BucketState :=
  measureAndReplace s (fun st => LeakyBucket.test_n_and_update p st n t0)

/-- Modelled from the spec: the newest revision's `LeakyBucket` attaches a
`NonConformance` to a rejected cell (the crate revision whose
`leaky_bucket.rs` carries the unified rejection type is not under `src/`;
only the `Decision::No(wait)` form is). Per the spec's leaky-bucket
section, the rejection is `TooEarly(t0, wait)` where `t0` is the clamped
check time (`max(t0, last)` after the spec's clamping step) and `wait`
the computed wait period. -/
def LeakyBucket.nonConformance (s : BucketState) (t0 : Int) (wait : Nat) :
    NonConformance :=
  ⟨max t0 (s.last_update.getD t0), wait⟩

/-- Embeds `Algorithm::test_and_update`'s default implementation
(`src/algorithms.rs`): delegate to the batch method with `n = 1`, unwrap a
`BatchNonConforming(1, nc)` to `nc`, and hit an `unreachable!`/panic
self-check branch on any other error. The panic branch is modelled as
`none`; every non-panicking outcome is `some`. Instantiated here for the
GCRA. -/
def GCRA.test_and_update_checked (p : GCRAParams) (s : GCRAState) (t0 : Int) :
    Option (Except NonConformance Unit × Option GCRAState) :=
  match GCRA.test_n_and_update p s 1 t0 with
  | (Except.ok _, ns) => some (Except.ok (), ns)
  | (Except.error (.batchNonConforming 1 nc), ns) => some (Except.error nc, ns)
  | (Except.error _, _) => none

/-- Embeds the `InconsistentCapacity` error struct of `src/errors.rs`
(fields `capacity` and `cell_weight`). -/
structure InconsistentCapacity where
  capacity : Nat
  cell_weight : Nat
  deriving Repr, DecidableEq

/-- Embeds the `Builder` struct of `src/algorithms/gcra.rs` (fields
`capacity`, `cell_weight`, `time_unit`). -/
structure GCRABuilder where
  capacity : Nat
  cell_weight : Nat
  time_unit : Nat
  deriving Repr, DecidableEq

/-- Embeds `GCRA::for_capacity` (`src/algorithms/gcra.rs`): reject a zero
capacity, otherwise start a builder with cell weight 1 and a one-second
time unit. -/
def GCRA.for_capacity (capacity : Nat) : Except InconsistentCapacity GCRABuilder :=
  if capacity = 0 then Except.error ⟨capacity, 0⟩
  else Except.ok ⟨capacity, 1, 1000000000⟩

/-- Embeds `Builder::cell_weight` of `src/algorithms/gcra.rs`, verbatim
including its comparison of the builder's previous `cell_weight` field
(not the new `weight` argument) against the capacity; the error carries
the new weight. -/
def GCRABuilder.cell_weight_set (b : GCRABuilder) (weight : Nat) :
    Except InconsistentCapacity GCRABuilder :=
  if b.cell_weight > b.capacity then Except.error ⟨b.capacity, weight⟩
  else Except.ok { b with cell_weight := weight }

/-- Embeds the direct rate limiter's `Builder` struct of
`src/state/direct.rs` (fields `capacity`, `cell_weight`, `time_unit`;
the clock field carries no data relevant here). -/
structure DirectBuilder where
  capacity : Nat
  cell_weight : Nat
  time_unit : Nat
  deriving Repr, DecidableEq

/-- Embeds `Builder::cell_weight` of `src/state/direct.rs`, verbatim
including its comparison of the builder's previous `cell_weight` field
(not the new `weight` argument) against the capacity; the error carries
the previous weight. -/
def DirectBuilder.cell_weight_set (b : DirectBuilder) (weight : Nat) :
    Except InconsistentCapacity DirectBuilder :=
  if b.cell_weight > b.capacity then Except.error ⟨b.capacity, b.cell_weight⟩
  else Except.ok { b with cell_weight := weight }

/-- Embeds the keyed rate limiter's `Builder` struct of
`src/state/keyed.rs` (the fields involved in the cell-weight check). -/
structure KeyedBuilder where
  capacity : Nat
  cell_weight : Nat
  per_time_unit : Nat
  deriving Repr, DecidableEq

/-- Embeds `Builder::with_cell_weight` of `src/state/keyed.rs`, verbatim
including its comparison of the builder's previous `cell_weight` field
(not the new `cell_weight` argument) against the capacity; the error
carries the new weight. -/
def KeyedBuilder.with_cell_weight (b : KeyedBuilder) (cw : Nat) :
    Except InconsistentCapacity KeyedBuilder :=
  if b.cell_weight > b.capacity then Except.error ⟨b.capacity, cw⟩
  else Except.ok { b with cell_weight := cw }

/-- Association-list lookup used to model the observable content of the
keyed rate limiter's `evmap` (the state readable through a key). -/
def lookupKey {K S : Type} [DecidableEq K] (m : List (K × S)) (k : K) : Option S :=
  match m with
  | [] => none
  | (k2, s) :: rest => if k2 = k then some s else lookupKey rest k

/-- Association-list update used to model `WriteHandle::update`: replace
the binding for `k` if present, add it otherwise. -/
def setKey {K S : Type} [DecidableEq K] (m : List (K × S)) (k : K) (s : S) :
    List (K × S) :=
  match m with
  | [] => [(k, s)]
  | (k2, s2) :: rest =>
    if k2 = k then (k, s) :: rest else (k2, s2) :: setKey rest k s

/-- Embeds `KeyedRateLimiter::check_and_update_key` (`src/state/keyed.rs`):
look the key up on the read side and run the update closure on its state
cell; if the key is absent, run the closure on a fresh default state and
insert the resulting state under the key (even when the decision was
negative). The closure is modelled in `measure_and_replace` shape, its
second component being the replacement state (kept unchanged when
`none`). -/
def checkAndUpdateKey {K S R : Type} [DecidableEq K] (defaultState : S)
    (m : List (K × S)) (key : K) (update : S → R × Option S) :
    R × List (K × S) :=
  match lookupKey m key with
  | some st =>
    let r := update st
    (r.1, setKey m key (r.2.getD st))
  | none =>
    let r := update defaultState
    (r.1, setKey m key (r.2.getD defaultState))

/-- Embeds `KeyedRateLimiter::cleanup_at` (`src/state/keyed.rs`): collect
every key whose state's `last_touched` (defaulting to the current clock
reading when undefined) lies strictly before `at - min_age`, then remove
the collected keys from the map. Returns the collected keys and the
resulting map. -/
def KeyedRateLimiter.cleanup_at {K S : Type} [DecidableEq K]
    (last_touched : S → Option Int) (now : Int)
    (m : List (K × S)) (min_age : Nat) (at0 : Int) :
    List K × List (K × S) :=
  let cutoff : Int := at0 - (min_age : Int)
  let expireable :=
    (m.filter (fun kv => decide ((last_touched kv.2).getD now < cutoff))).map Prod.fst
  (expireable, m.filter (fun kv => decide (kv.1 ∉ expireable)))

/-- Modelled from the spec: `RateLimitState::last_touched` for the GCRA
(the implementation of the newest crate revision is not under `src/`).
Per the spec's keyed-limiter section, it is the stored tat when present,
and undefined (treated as the current clock reading, i.e. always fresh)
otherwise. -/
def GCRA.last_touched (s : GCRAState) : Option Int := s

/-- Modelled from the spec: `RateLimitState::last_touched` for the leaky
bucket (the implementation of the newest crate revision is not under
`src/`). Per the spec's keyed-limiter section it is `last_update + level`,
the instant at which the bucket is next fully drained. -/
def LeakyBucket.last_touched (s : BucketState) : Option Int :=
  s.last_update.map (fun l => l + (s.level : Int))

/-- Helper notion for the leaky bucket: the fill level the stored state
implies at the instant `at0`, i.e. the dripped level a check arriving at
`at0` would observe (the clamped drip computation of
`LeakyBucket::test_n_and_update` applied to the stored state). -/
def LeakyBucket.impliedLevel (s : BucketState) (at0 : Int) : Nat :=
  match s.last_update with
  | none => s.level
  | some last => s.level - min (max at0 last - last).toNat s.level

/-- C1: for every GCRA bucket with parameters `t` and `tau` and every
single-cell check at time `t0`, with `tat` the stored theoretical arrival
time (or `t0` if the bucket is fresh): the check is rejected exactly when
`t0 < tat - tau`, in which case the returned non-conformance has
`earliest_possible() = tat` and the stored state is unchanged; otherwise
the check is accepted and the stored tat becomes `max(tat, t0) + t`. -/
theorem gcra_single_cell_characterization (p : GCRAParams) (s : GCRAState) (t0 : Int) :
    (GCRA.check_at p s t0 =
      if t0 < (s.getD t0) - (p.tau : Int)
      then (Except.error ⟨t0, ((s.getD t0) - t0).toNat⟩, s)
      else (Except.ok (), some (max (s.getD t0) t0 + (p.t : Int))))
    ∧ (t0 < (s.getD t0) - (p.tau : Int) →
        NonConformance.earliest_possible ⟨t0, ((s.getD t0) - t0).toNat⟩ = s.getD t0) := by
  constructor
  · by_cases h : t0 < (s.getD t0) - (p.tau : Int) <;>
      simp [GCRA.check_at, measureAndReplace, GCRA.test_and_update, h]
  · intro h
    show t0 + (((s.getD t0) - t0).toNat : Int) = s.getD t0
    omega

/-- Witness for C1: a rejected check (stored tat 10, tau 1, check at 0)
leaves the state unchanged with earliest possible instant 10, and an
accepted check at 9 advances the stored tat to 11. -/
theorem gcra_single_cell_witness :
    GCRA.check_at ⟨1, 1⟩ (some 10) 0 = (Except.error ⟨0, 10⟩, some 10) ∧
    NonConformance.earliest_possible ⟨0, 10⟩ = 10 ∧
    GCRA.check_at ⟨1, 1⟩ (some 10) 9 = (Except.ok (), (some 11 : GCRAState)) := by
  refine ⟨?_, ?_, ?_⟩
  · rw [(gcra_single_cell_characterization ⟨1, 1⟩ (some 10) 0).1]
    decide
  · exact (gcra_single_cell_characterization ⟨1, 1⟩ (some 10) 0).2 (by decide)
  · rw [(gcra_single_cell_characterization ⟨1, 1⟩ (some 10) 9).1]
    decide

/-- C2: for every leaky bucket with drain time `full` and per-cell
interval `token_interval`, and every batch check of `n` cells at time `t0`
with `token_interval * n ≤ full`: with `last` the stored last update (or
`t0` if fresh), clamped time `max(t0, last)` and the dripped level
`level - min(elapsed, level)`, the call accepts iff the dripped level plus
the batch weight fits in `full`, committing the new level and last-update
time; otherwise it rejects reporting the overflow as the wait and commits
no state change. -/
theorem leaky_bucket_batch_characterization (p : LeakyBucketParams) (s : BucketState)
    (n : Nat) (t0 : Int) (hcap : p.token_interval * n ≤ p.full) :
    ((s.level - min (max t0 (s.last_update.getD t0) - s.last_update.getD t0).toNat s.level)
        + p.token_interval * n ≤ p.full →
      LeakyBucket.check_n_at p s n t0 =
        (Except.ok Decision.yes,
         ⟨(s.level - min (max t0 (s.last_update.getD t0) - s.last_update.getD t0).toNat s.level)
            + p.token_interval * n,
          some (max t0 (s.last_update.getD t0))⟩))
    ∧ (p.full <
        (s.level - min (max t0 (s.last_update.getD t0) - s.last_update.getD t0).toNat s.level)
          + p.token_interval * n →
      LeakyBucket.check_n_at p s n t0 =
        (Except.ok (Decision.no
          ((s.level - min (max t0 (s.last_update.getD t0) - s.last_update.getD t0).toNat s.level)
            + p.token_interval * n - p.full)), s)) := by
  have hw : ¬ p.token_interval * n > p.full := not_lt.mpr hcap
  constructor
  · intro hacc
    have hacc2 : p.token_interval * n +
        (s.level - min (max t0 (s.last_update.getD t0) - s.last_update.getD t0).toNat s.level)
        ≤ p.full := by omega
    simp only [LeakyBucket.check_n_at, measureAndReplace, LeakyBucket.test_n_and_update,
      if_neg hw, if_pos hacc2]
  · intro hrej
    have hrej2 : ¬ (p.token_interval * n +
        (s.level - min (max t0 (s.last_update.getD t0) - s.last_update.getD t0).toNat s.level)
        ≤ p.full) := by omega
    simp only [LeakyBucket.check_n_at, measureAndReplace, LeakyBucket.test_n_and_update,
      if_neg hw, if_neg hrej2]
    show (Except.ok (Decision.no _), s) = (Except.ok (Decision.no _), s)
    norm_num
    omega

/-- Witness for C2: with full 10, token interval 2 and state (level 6,
last update 100), a batch of 3 at time 102 is accepted committing
(level 10, last update 102), and a batch of 4 at time 101 is rejected
with wait 3 leaving the state unchanged. -/
theorem leaky_bucket_batch_witness :
    LeakyBucket.check_n_at ⟨10, 2⟩ ⟨6, some 100⟩ 3 102 =
      (Except.ok Decision.yes, ⟨10, some 102⟩) ∧
    LeakyBucket.check_n_at ⟨10, 2⟩ ⟨6, some 100⟩ 4 101 =
      (Except.ok (Decision.no 3), ⟨6, some 100⟩) := by
  constructor
  · have h := (leaky_bucket_batch_characterization ⟨10, 2⟩ ⟨6, some 100⟩ 3 102 (by decide)).1
      (by decide)
    simpa using h
  · have h := (leaky_bucket_batch_characterization ⟨10, 2⟩ ⟨6, some 100⟩ 4 101 (by decide)).2
      (by decide)
    simpa using h

/-- Helper: the decision returned by `measure_and_replace` is the decision
computed by the closure. -/
theorem measureAndReplace_fst {S E R : Type} (s : S) (f : S → Except E R × Option S) :
    (measureAndReplace s f).1 = (f s).1 := by
  cases h : (f s).2 <;> simp [measureAndReplace, h]

/-- Helper: when the closure produces no replacement state,
`measure_and_replace` returns the decision and leaves the state as it
was. -/
theorem measureAndReplace_of_no_commit {S E R : Type} (s : S) (f : S → Except E R × Option S)
    (h : (f s).2 = none) : measureAndReplace s f = ((f s).1, s) := by
  simp [measureAndReplace, h]

/-- Helper: `GCRA::test_and_update` either commits no state or returns a
positive decision. -/
theorem gcra_single_commit_or_ok (p : GCRAParams) (s : GCRAState) (t0 : Int) :
    (GCRA.test_and_update p s t0).2 = none ∨
      (GCRA.test_and_update p s t0).1 = Except.ok () := by
  simp only [GCRA.test_and_update]
  split
  · left
    rfl
  · right
    rfl

/-- Helper: `GCRA::test_n_and_update` either commits no state or returns a
positive decision. -/
theorem gcra_multi_commit_or_ok (p : GCRAParams) (s : GCRAState) (n : Nat) (t0 : Int) :
    (GCRA.test_n_and_update p s n t0).2 = none ∨
      (GCRA.test_n_and_update p s n t0).1 = Except.ok () := by
  simp only [GCRA.test_n_and_update]
  split
  · left
    rfl
  · split
    · left
      rfl
    · right
      rfl

/-- Helper: `LeakyBucket::test_n_and_update` either commits no state or
returns `Decision::Yes`. -/
theorem lb_multi_commit_or_yes (p : LeakyBucketParams) (s : BucketState) (n : Nat) (t0 : Int) :
    (LeakyBucket.test_n_and_update p s n t0).2 = none ∨
      (LeakyBucket.test_n_and_update p s n t0).1 = Except.ok Decision.yes := by
  simp only [LeakyBucket.test_n_and_update]
  split
  · left
    rfl
  · split
    · right
      rfl
    · left
      rfl

/-- C3: for every algorithm (GCRA and LeakyBucket), every bucket state,
every batch size and every instant, if a check variant returns a negative
decision of any variant (a single-cell non-conformance, a batch
non-conformance, an insufficient-capacity error, or the leaky bucket's
`Decision::No`), the state observable via `snapshot` after the call equals
the state before it. -/
theorem rejected_checks_leave_state_unchanged :
    (∀ (p : GCRAParams) (s : GCRAState) (t0 : Int) (e : NonConformance),
      (GCRA.check_at p s t0).1 = Except.error e → (GCRA.check_at p s t0).2 = s) ∧
    (∀ (p : GCRAParams) (s : GCRAState) (n : Nat) (t0 : Int) (e : NegativeMultiDecision),
      (GCRA.check_n_at p s n t0).1 = Except.error e → (GCRA.check_n_at p s n t0).2 = s) ∧
    (∀ (p : LeakyBucketParams) (s : BucketState) (n : Nat) (t0 : Int) (e : ErrorKind),
      (LeakyBucket.check_n_at p s n t0).1 = Except.error e →
        (LeakyBucket.check_n_at p s n t0).2 = s) ∧
    (∀ (p : LeakyBucketParams) (s : BucketState) (n : Nat) (t0 : Int) (w : Nat),
      (LeakyBucket.check_n_at p s n t0).1 = Except.ok (Decision.no w) →
        (LeakyBucket.check_n_at p s n t0).2 = s) := by
  refine ⟨fun p s t0 e h => ?_, fun p s n t0 e h => ?_, fun p s n t0 e h => ?_,
    fun p s n t0 w h => ?_⟩
  · rw [GCRA.check_at, measureAndReplace_fst] at h
    rcases gcra_single_commit_or_ok p s t0 with hc | hc
    · rw [GCRA.check_at, measureAndReplace_of_no_commit _ _ hc]
    · rw [hc] at h
      exact absurd h (by simp)
  · rw [GCRA.check_n_at, measureAndReplace_fst] at h
    rcases gcra_multi_commit_or_ok p s n t0 with hc | hc
    · rw [GCRA.check_n_at, measureAndReplace_of_no_commit _ _ hc]
    · rw [hc] at h
      exact absurd h (by simp)
  · rw [LeakyBucket.check_n_at, measureAndReplace_fst] at h
    rcases lb_multi_commit_or_yes p s n t0 with hc | hc
    · rw [LeakyBucket.check_n_at, measureAndReplace_of_no_commit _ _ hc]
    · rw [hc] at h
      exact absurd h (by simp)
  · rw [LeakyBucket.check_n_at, measureAndReplace_fst] at h
    rcases lb_multi_commit_or_yes p s n t0 with hc | hc
    · rw [LeakyBucket.check_n_at, measureAndReplace_of_no_commit _ _ hc]
    · rw [hc] at h
      exact absurd h (by simp)

/-- Witness for C3: a non-conforming GCRA batch, a non-conforming leaky
bucket batch and an insufficient-capacity leaky bucket batch all leave
their states unchanged. -/
theorem rejected_checks_witness :
    (GCRA.check_n_at ⟨500, 1000⟩ (some 1500) 2 1).2 = some 1500 ∧
    (LeakyBucket.check_n_at ⟨10, 2⟩ ⟨6, some 100⟩ 4 101).2 = ⟨6, some 100⟩ ∧
    (LeakyBucket.check_n_at ⟨10, 2⟩ ⟨6, some 100⟩ 6 101).2 = ⟨6, some 100⟩ := by
  refine ⟨?_, ?_, ?_⟩
  · exact rejected_checks_leave_state_unchanged.2.1 ⟨500, 1000⟩ (some 1500) 2 1
      (NegativeMultiDecision.batchNonConforming 2 ⟨1, 1999⟩) (by decide)
  · exact rejected_checks_leave_state_unchanged.2.2.2 ⟨10, 2⟩ ⟨6, some 100⟩ 4 101 3 (by decide)
  · exact rejected_checks_leave_state_unchanged.2.2.1 ⟨10, 2⟩ ⟨6, some 100⟩ 6 101
      (ErrorKind.insufficientCapacity 6) (by decide)

/-- C4: evaluation at the failing input of the claim that a builder's
cell-weight setter rejects `cell_weight > capacity`. All three setters
(GCRA builder, direct-limiter builder, keyed-limiter builder) start from
capacity 1 and cell weight 1, are asked to set cell weight 2 > capacity 1,
and return `Ok` with the oversized weight stored, because each compares
the builder's previous `cell_weight` field instead of the new argument. -/
theorem builder_cell_weight_not_validated :
    GCRA.for_capacity 1 = Except.ok ⟨1, 1, 1000000000⟩ ∧
    GCRABuilder.cell_weight_set ⟨1, 1, 1000000000⟩ 2 = Except.ok ⟨1, 2, 1000000000⟩ ∧
    DirectBuilder.cell_weight_set ⟨1, 1, 1000000000⟩ 2 = Except.ok ⟨1, 2, 1000000000⟩ ∧
    KeyedBuilder.with_cell_weight ⟨1, 1, 1000000000⟩ 2 = Except.ok ⟨1, 2, 1000000000⟩ ∧
    1 < 2 := by
  decide

/-- Helper: `GCRA::test_n_and_update` returns `InsufficientCapacity(n)`
exactly when `n ≥ 2` and the capacity pre-check `t*(n-1) + t > tau`
fires; the stored state plays no role in this outcome. -/
theorem gcra_multi_ic_characterization (p : GCRAParams) (s : GCRAState) (n : Nat) (t0 : Int) :
    (GCRA.test_n_and_update p s n t0).1 = Except.error (.insufficientCapacity n) ↔
      (2 ≤ n ∧ p.t * (n - 1) + p.t > p.tau) := by
  rcases n with _ | _ | m
  · simp only [GCRA.test_n_and_update]
    norm_num
    split <;> simp
  · simp only [GCRA.test_n_and_update]
    norm_num
    split <;> simp
  · have e1 : m + 1 + 1 - 1 = m + 1 := rfl
    have e2 : m + 2 - 1 = m + 1 := rfl
    simp only [GCRA.test_n_and_update, e1, e2,
      if_neg (show ¬(m + 2 = 0) by omega), if_neg (show ¬(m + 2 = 1) by omega)]
    by_cases hw : p.t * (m + 1) + p.t > p.tau
    · simp only [if_pos hw]
      constructor
      · intro _
        exact ⟨by omega, hw⟩
      · intro _
        trivial
    · simp only [if_neg hw]
      split <;> simp [hw]

/-- Helper: a fresh GCRA bucket admits a batch of `n` cells exactly when
the capacity pre-check does not fire. -/
theorem gcra_fresh_ok_iff (p : GCRAParams) (n : Nat) (t0 : Int) :
    (GCRA.test_n_and_update p none n t0).1 = Except.ok () ↔
      ¬(2 ≤ n ∧ p.t * (n - 1) + p.t > p.tau) := by
  rcases n with _ | _ | m
  · simp only [GCRA.test_n_and_update]
    norm_num
    split
    · omega
    · simp
  · simp only [GCRA.test_n_and_update]
    norm_num
    split
    · simp only [Option.getD_none] at *
      omega
    · simp
  · have e1 : m + 1 + 1 - 1 = m + 1 := rfl
    have e2 : m + 2 - 1 = m + 1 := rfl
    simp only [GCRA.test_n_and_update, e1, e2,
      if_neg (show ¬(m + 2 = 0) by omega), if_neg (show ¬(m + 2 = 1) by omega)]
    by_cases hw : p.t * (m + 1) + p.t > p.tau
    · simp only [if_pos hw]
      simp
      exact hw
    · simp only [if_neg hw]
      split
      · simp only [Option.getD_none] at *
        omega
      · simp [hw]

/-- Helper: `LeakyBucket::test_n_and_update` returns
`InsufficientCapacity(n)` exactly when `token_interval * n > full`; the
stored state plays no role in this outcome. -/
theorem lb_multi_ic_iff (p : LeakyBucketParams) (s : BucketState) (n : Nat) (t0 : Int) :
    (LeakyBucket.test_n_and_update p s n t0).1 = Except.error (.insufficientCapacity n) ↔
      p.token_interval * n > p.full := by
  simp only [LeakyBucket.test_n_and_update]
  by_cases hw : p.token_interval * n > p.full
  · simp [hw]
  · simp only [if_neg hw]
    split <;> simp [hw]

/-- Helper: a fresh leaky bucket admits a batch of `n` cells exactly when
`token_interval * n ≤ full`. -/
theorem lb_fresh_yes_iff (p : LeakyBucketParams) (n : Nat) (t0 : Int) :
    (LeakyBucket.test_n_and_update p ⟨0, none⟩ n t0).1 = Except.ok Decision.yes ↔
      ¬ p.token_interval * n > p.full := by
  simp only [LeakyBucket.test_n_and_update]
  by_cases hw : p.token_interval * n > p.full
  · simp [hw]
  · simp [hw]
    rw [if_pos (show p.token_interval * n ≤ p.full by omega)]

/-- C5: for every algorithm (GCRA and LeakyBucket), every batch size `n`,
every bucket state and every instant, `check_n` returns
`InsufficientCapacity(n)` if and only if the algorithm could not admit
`n` cells even on a fresh bucket at that instant. -/
theorem insufficient_capacity_iff_fresh_bucket_fails :
    (∀ (p : GCRAParams) (s : GCRAState) (n : Nat) (t0 : Int),
      (GCRA.check_n_at p s n t0).1 = Except.error (.insufficientCapacity n) ↔
        ¬ (GCRA.check_n_at p none n t0).1 = Except.ok ()) ∧
    (∀ (p : LeakyBucketParams) (s : BucketState) (n : Nat) (t0 : Int),
      (LeakyBucket.check_n_at p s n t0).1 = Except.error (.insufficientCapacity n) ↔
        ¬ (LeakyBucket.check_n_at p ⟨0, none⟩ n t0).1 = Except.ok Decision.yes) := by
  constructor
  · intro p s n t0
    rw [GCRA.check_n_at, GCRA.check_n_at, measureAndReplace_fst, measureAndReplace_fst,
      gcra_multi_ic_characterization, gcra_fresh_ok_iff]
    exact not_not.symm
  · intro p s n t0
    rw [LeakyBucket.check_n_at, LeakyBucket.check_n_at, measureAndReplace_fst,
      measureAndReplace_fst, lb_multi_ic_iff, lb_fresh_yes_iff]
    exact not_not.symm

/-- Witness for C5: a GCRA bucket with t 500 and tau 1000 reports
insufficient capacity for a batch of 15 from any state, and a leaky
bucket with full 10 and token interval 2 does so for a batch of 6. -/
theorem insufficient_capacity_witness :
    (GCRA.check_n_at ⟨500, 1000⟩ (some 3) 15 0).1
      = Except.error (.insufficientCapacity 15) ∧
    (LeakyBucket.check_n_at ⟨10, 2⟩ ⟨6, some 100⟩ 6 0).1
      = Except.error (.insufficientCapacity 6) := by
  constructor
  · exact (insufficient_capacity_iff_fresh_bucket_fails.1 ⟨500, 1000⟩ (some 3) 15 0).mpr
      (by decide)
  · exact (insufficient_capacity_iff_fresh_bucket_fails.2 ⟨10, 2⟩ ⟨6, some 100⟩ 6 0).mpr
      (by decide)

/-- C6: after a single-cell check is rejected at time `t`, the
immediately following `check_at(t + wait_time_from(t))` on the same
bucket, with nothing in between, is accepted. For the GCRA the rejection
carries the stored tat; for the leaky bucket the rejection value is the
spec-modelled `TooEarly(clamped t, wait)` and the bucket satisfies the
documented state invariant that a never-updated bucket has level 0. -/
theorem wait_time_soundness :
    (∀ (p : GCRAParams) (s : GCRAState) (t0 : Int) (nc : NonConformance),
      (GCRA.check_at p s t0).1 = Except.error nc →
        (GCRA.check_at p (GCRA.check_at p s t0).2
            (t0 + (nc.wait_time_from t0 : Int))).1 = Except.ok ()) ∧
    (∀ (p : LeakyBucketParams) (s : BucketState) (t0 : Int) (w : Nat),
      (s.last_update = none → s.level = 0) →
      (LeakyBucket.check_n_at p s 1 t0).1 = Except.ok (Decision.no w) →
        (LeakyBucket.check_n_at p (LeakyBucket.check_n_at p s 1 t0).2 1
            (t0 + ((LeakyBucket.nonConformance s t0 w).wait_time_from t0 : Int))).1
          = Except.ok Decision.yes) := by
  constructor
  · intro p s t0 nc h
    have hfst : (GCRA.test_and_update p s t0).1 = Except.error nc := by
      rwa [GCRA.check_at, measureAndReplace_fst] at h
    have hs2 : (GCRA.check_at p s t0).2 = s := by
      rcases gcra_single_commit_or_ok p s t0 with hc | hc
      · rw [GCRA.check_at, measureAndReplace_of_no_commit _ _ hc]
      · rw [hc] at hfst
        simp at hfst
    rw [hs2]
    simp only [GCRA.test_and_update] at hfst
    split at hfst
    case isFalse => simp at hfst
    case isTrue h1 =>
      simp only [] at hfst
      have hnc : nc = ⟨t0, ((s.getD t0) - t0).toNat⟩ := by
        cases hfst
        rfl
      rcases s with _ | tat
      · simp only [Option.getD_none] at h1
        omega
      · simp only [Option.getD_some] at h1 hnc
        subst hnc
        have hw : (NonConformance.wait_time_from ⟨t0, (tat - t0).toNat⟩ t0 : Int)
            = tat - t0 := by
          simp only [NonConformance.wait_time_from]
          split_ifs <;> omega
        rw [hw, GCRA.check_at, measureAndReplace_fst]
        simp only [GCRA.test_and_update, Option.getD_some]
        rw [if_neg (by omega)]
  · intro p s t0 w hinv h
    have hfst : (LeakyBucket.test_n_and_update p s 1 t0).1 = Except.ok (Decision.no w) := by
      rwa [LeakyBucket.check_n_at, measureAndReplace_fst] at h
    have hs2 : (LeakyBucket.check_n_at p s 1 t0).2 = s := by
      rcases lb_multi_commit_or_yes p s 1 t0 with hc | hc
      · rw [LeakyBucket.check_n_at, measureAndReplace_of_no_commit _ _ hc]
      · rw [hc] at hfst
        simp at hfst
    rw [hs2]
    rcases s with ⟨level, lu⟩
    simp only [LeakyBucket.test_n_and_update, mul_one] at hfst
    split at hfst
    case isTrue => simp at hfst
    case isFalse hcap =>
      split at hfst
      case isTrue => simp at hfst
      case isFalse hrej =>
        simp only [Except.ok.injEq, Decision.no.injEq] at hfst
        rcases lu with _ | l
        · simp only [Option.getD_none] at hrej
          have h0 : level = 0 := hinv rfl
          subst h0
          simp at hrej
          omega
        · simp only [Option.getD_some] at hrej hfst
          have hwt : (t0 + ((LeakyBucket.nonConformance ⟨level, some l⟩ t0 w).wait_time_from t0 : Int))
              = max t0 l + (w : Int) := by
            simp only [LeakyBucket.nonConformance, NonConformance.wait_time_from,
              Option.getD_some]
            split_ifs <;> omega
          rw [hwt, LeakyBucket.check_n_at, measureAndReplace_fst]
          simp only [LeakyBucket.test_n_and_update, mul_one, Option.getD_some]
          rw [if_neg hcap, if_pos (by omega)]

/-- Witness for C6: a GCRA bucket (t 1, tau 1, stored tat 10) rejected at
0 admits the retry at 10, and a full leaky bucket (full 10, token
interval 2, level 10, last update 100) rejected at 100 admits the retry
at 102. -/
theorem wait_time_soundness_witness :
    (GCRA.check_at ⟨1, 1⟩ (GCRA.check_at ⟨1, 1⟩ (some 10) 0).2
        (0 + ((NonConformance.mk 0 10).wait_time_from 0 : Int))).1 = Except.ok () ∧
    (LeakyBucket.check_n_at ⟨10, 2⟩ (LeakyBucket.check_n_at ⟨10, 2⟩ ⟨10, some 100⟩ 1 100).2 1
        (100 + ((LeakyBucket.nonConformance ⟨10, some 100⟩ 100 2).wait_time_from 100 : Int))).1
      = Except.ok Decision.yes :=
  ⟨wait_time_soundness.1 ⟨1, 1⟩ (some 10) 0 ⟨0, 10⟩ (by decide),
   wait_time_soundness.2 ⟨10, 2⟩ ⟨10, some 100⟩ 100 2 (by decide) (by decide)⟩

/-- Helper: the state left by `measure_and_replace` is the closure's
replacement state when one was produced, the old state otherwise. -/
theorem measureAndReplace_snd {S E R : Type} (s : S) (f : S → Except E R × Option S) :
    (measureAndReplace s f).2 = ((f s).2).getD s := by
  cases h : (f s).2 <;> simp [measureAndReplace, h]

/-- Helper: when `LeakyBucket::test_n_and_update` accepts, it commits the
dripped level plus the batch weight together with the clamped check
time. -/
theorem lb_accept_commit (p : LeakyBucketParams) (s : BucketState) (n : Nat) (t0 : Int)
    (h : (LeakyBucket.test_n_and_update p s n t0).1 = Except.ok Decision.yes) :
    (LeakyBucket.test_n_and_update p s n t0).2 =
      some ⟨(s.level - min (max t0 (s.last_update.getD t0) - s.last_update.getD t0).toNat s.level)
              + p.token_interval * n,
            some (max t0 (s.last_update.getD t0))⟩ := by
  simp only [LeakyBucket.test_n_and_update] at h ⊢
  split at h
  · simp at h
  · split at h
    case isTrue hacc =>
      rw [if_neg (by assumption), if_pos hacc]
    case isFalse => simp at h

/-- C7 counterexample: the claim includes batch size `n = 0`, but a
zero-cell GCRA check rewrites the stored tat to the check time. After an
admission at time 5 stores tat 6, the zero-cell check at the earlier time
0 is accepted and lowers the stored tat to 0 < 6, reducing the bucket's
effective utilization. -/
theorem gcra_zero_cell_time_travel_counterexample :
    (GCRA.check_at ⟨1, 10⟩ none 5).1 = Except.ok () ∧
    (GCRA.check_at ⟨1, 10⟩ none 5).2 = some 6 ∧
    (GCRA.check_n_at ⟨1, 10⟩ (some 6) 0 0).1 = Except.ok () ∧
    (GCRA.check_n_at ⟨1, 10⟩ (some 6) 0 0).2 = some 0 ∧
    (0 : Int) < 5 ∧ (0 : Int) < 6 := by
  decide

/-- C7 amended: after a cell is admitted at `t1`, a check at any earlier
`t2 < t1` with batch size `n ≥ 1` does not decrease the GCRA's stored
theoretical arrival time, and a leaky-bucket check at an earlier time
(any `n`, including 0) does not decrease the fill level implied at any
instant. The original claim fails only for GCRA zero-cell checks. -/
theorem time_travel_safety_amended :
    (∀ (p : GCRAParams) (s0 : GCRAState) (t1 t2 : Int) (n : Nat) (tat1 tat2 : Int),
      (GCRA.check_at p s0 t1).1 = Except.ok () → t2 < t1 → 1 ≤ n →
      (GCRA.check_at p s0 t1).2 = some tat1 →
      (GCRA.check_n_at p (some tat1) n t2).2 = some tat2 →
      tat1 ≤ tat2) ∧
    (∀ (p : LeakyBucketParams) (s0 : BucketState) (t1 t2 : Int) (n : Nat) (u : Int),
      (LeakyBucket.check_n_at p s0 1 t1).1 = Except.ok Decision.yes → t2 < t1 →
      LeakyBucket.impliedLevel ((LeakyBucket.check_n_at p s0 1 t1).2) u ≤
        LeakyBucket.impliedLevel
          ((LeakyBucket.check_n_at p ((LeakyBucket.check_n_at p s0 1 t1).2) n t2).2) u) := by
  constructor
  · intro p s0 t1 t2 n tat1 tat2 hok hlt hn h1 h2
    rw [GCRA.check_n_at, measureAndReplace_snd] at h2
    rcases n with _ | _ | m
    · omega
    · simp only [GCRA.test_n_and_update, Option.getD_some] at h2
      norm_num at h2
      split at h2
      · simp at h2
        omega
      · simp at h2
        omega
    · have e1 : m + 1 + 1 - 1 = m + 1 := rfl
      have e2 : m + 2 - 1 = m + 1 := rfl
      simp only [GCRA.test_n_and_update, e1, e2, Option.getD_some,
        if_neg (show ¬(m + 2 = 0) by omega), if_neg (show ¬(m + 2 = 1) by omega)] at h2
      by_cases hw : p.t * (m + 1) + p.t > p.tau
      · simp only [if_pos hw] at h2
        simp at h2
        omega
      · simp only [if_neg hw] at h2
        split at h2
        · simp at h2
          omega
        · simp at h2
          have hg : (0 : Int) ≤ (p.t : Int) * ((m : Int) + 1 + 1) := by positivity
          have hg2 : (0 : Int) ≤ (p.t : Int) * ((m : Int) + 1) := by positivity
          omega
  · intro p s0 t1 t2 n u hok hlt
    have hfst1 : (LeakyBucket.test_n_and_update p s0 1 t1).1 = Except.ok Decision.yes := by
      rwa [LeakyBucket.check_n_at, measureAndReplace_fst] at hok
    have hs1 : (LeakyBucket.check_n_at p s0 1 t1).2 =
        ⟨(s0.level - min (max t1 (s0.last_update.getD t1) - s0.last_update.getD t1).toNat s0.level)
            + p.token_interval * 1,
          some (max t1 (s0.last_update.getD t1))⟩ := by
      rw [LeakyBucket.check_n_at, measureAndReplace_snd, lb_accept_commit p s0 1 t1 hfst1]
      rfl
    rw [hs1]
    set L1 : Nat :=
      (s0.level - min (max t1 (s0.last_update.getD t1) - s0.last_update.getD t1).toNat s0.level)
        + p.token_interval * 1 with hL1
    set l1 : Int := max t1 (s0.last_update.getD t1) with hl1
    have hl1ge : t2 < l1 := lt_of_lt_of_le hlt (le_max_left _ _)
    rcases lb_multi_commit_or_yes p ⟨L1, some l1⟩ n t2 with hc | hc
    · rw [LeakyBucket.check_n_at, measureAndReplace_of_no_commit _ _ hc]
    · have h2 := lb_accept_commit p ⟨L1, some l1⟩ n t2 hc
      rw [LeakyBucket.check_n_at, measureAndReplace_snd, h2]
      simp only [Option.getD_some]
      have hmax : max t2 l1 = l1 := max_eq_right (le_of_lt hl1ge)
      rw [hmax]
      simp only [LeakyBucket.impliedLevel, sub_self, Int.toNat_zero]
      simp only [Nat.zero_min, Nat.sub_zero]
      omega

/-- Witness for C7: a GCRA admission at 5 (tat 6) followed by a check at
0 keeps tat at least 6 (it becomes 7), and a leaky-bucket admission at 5
followed by a check at 0 does not lower the level implied at instant
100. -/
theorem time_travel_witness :
    ((6 : Int) ≤ 7) ∧
    LeakyBucket.impliedLevel ((LeakyBucket.check_n_at ⟨10, 2⟩ ⟨0, none⟩ 1 5).2) 100 ≤
      LeakyBucket.impliedLevel ((LeakyBucket.check_n_at ⟨10, 2⟩
        ((LeakyBucket.check_n_at ⟨10, 2⟩ ⟨0, none⟩ 1 5).2) 1 0).2) 100 :=
  ⟨time_travel_safety_amended.1 ⟨1, 10⟩ none 5 0 1 6 7 (by decide) (by decide) (by decide)
      (by decide) (by decide),
   time_travel_safety_amended.2 ⟨10, 2⟩ ⟨0, none⟩ 5 0 1 100 (by decide) (by decide)⟩

/-- Helper: updating a key and then reading it yields the written
state. -/
theorem lookupKey_setKey_self {K S : Type} [DecidableEq K] (m : List (K × S)) (k : K) (s : S) :
    lookupKey (setKey m k s) k = some s := by
  induction m with
  | nil => simp [setKey, lookupKey]
  | cons kv rest ih =>
    obtain ⟨k2, s2⟩ := kv
    by_cases h : k2 = k
    · subst h
      simp [setKey, lookupKey]
    · simp [setKey, lookupKey, h, ih]

/-- Helper: updating one key leaves every other key's binding
unchanged. -/
theorem lookupKey_setKey_ne {K S : Type} [DecidableEq K] (m : List (K × S)) (key k : K)
    (s : S) (h : k ≠ key) : lookupKey (setKey m key s) k = lookupKey m k := by
  induction m with
  | nil => simp [setKey, lookupKey, Ne.symm h]
  | cons kv rest ih =>
    obtain ⟨k2, s2⟩ := kv
    by_cases h2 : k2 = key
    · subst h2
      simp [setKey, lookupKey, Ne.symm h]
    · by_cases h3 : k2 = k
      · simp [setKey, lookupKey, h2, h3, h]
      · simp [setKey, lookupKey, h2, h3, ih]

/-- C10: every check variant on a keyed rate limiter for a key `key`
goes through `check_and_update_key` and modifies at most the map entry
for `key`: the state observable via every other key is unchanged, and if
`key` was absent an entry for it (the updated default state) is inserted
by the call even when the returned decision is negative (the closure
commits no replacement). -/
theorem keyed_check_frame {K S R : Type} [DecidableEq K] (m : List (K × S)) (defaultState : S)
    (key : K) (update : S → R × Option S) :
    (∀ k, k ≠ key →
      lookupKey (checkAndUpdateKey defaultState m key update).2 k = lookupKey m k) ∧
    (lookupKey m key = none →
      lookupKey (checkAndUpdateKey defaultState m key update).2 key
        = some ((update defaultState).2.getD defaultState)) := by
  constructor
  · intro k hk
    rcases hlk : lookupKey m key with _ | st
    · simp only [checkAndUpdateKey, hlk]
      exact lookupKey_setKey_ne m key k _ hk
    · simp only [checkAndUpdateKey, hlk]
      exact lookupKey_setKey_ne m key k _ hk
  · intro hlk
    simp only [checkAndUpdateKey, hlk]
    exact lookupKey_setKey_self m key _

/-- Witness for C10: checking absent key 0 on the one-entry map
`[(1, 5)]` with an always-rejecting closure leaves key 2 unobservable as
before and inserts the default state 7 under key 0. -/
theorem keyed_check_frame_witness :
    ((2 : Nat) ≠ 0 ∧
      lookupKey (checkAndUpdateKey 7 [((1 : Nat), (5 : Nat))] 0
        (fun _ => (false, none))).2 2 = lookupKey [((1 : Nat), (5 : Nat))] 2) ∧
    (lookupKey [((1 : Nat), (5 : Nat))] 0 = none ∧
      lookupKey (checkAndUpdateKey 7 [((1 : Nat), (5 : Nat))] 0
        (fun _ => (false, none))).2 0 = some 7) :=
  ⟨⟨by decide, (keyed_check_frame [((1 : Nat), (5 : Nat))] 7 0 (fun _ => (false, none))).1 2
      (by decide)⟩,
   ⟨by decide, (keyed_check_frame [((1 : Nat), (5 : Nat))] 7 0 (fun _ => (false, none))).2
      (by decide)⟩⟩

/-- Helper: removing every entry whose key was collected makes a
collected key unreadable. -/
theorem lookupKey_filter_not_mem {K S : Type} [DecidableEq K] (m : List (K × S))
    (ex : List K) (k : K) (hk : k ∈ ex) :
    lookupKey (m.filter (fun kv => decide (kv.1 ∉ ex))) k = none := by
  induction m with
  | nil => rfl
  | cons kv rest ih =>
    obtain ⟨k2, s2⟩ := kv
    by_cases hmem : k2 ∈ ex
    · rw [List.filter_cons_of_neg (by simpa using hmem)]
      exact ih
    · rw [List.filter_cons_of_pos (by simpa using hmem)]
      have hne : k2 ≠ k := fun he => hmem (he ▸ hk)
      simp only [lookupKey, if_neg hne]
      exact ih

/-- C8 counterexample: the claim says a key with `last_touched ≤ t` is
removed by `cleanup_at` with min_age 0 at `t`, but the code compares with
strict `<`. A key whose GCRA state has `last_touched = 5 ≤ 5` survives a
cleanup at time 5: the returned removal list is empty and the key is
still present. -/
theorem cleanup_zero_age_counterexample :
    GCRA.last_touched (some 5) = some 5 ∧ ((5 : Int) ≤ 5) ∧
    KeyedRateLimiter.cleanup_at GCRA.last_touched 99 [((0 : Nat), (some 5 : GCRAState))] 0 5
      = ([], [(0, some 5)]) ∧
    lookupKey [((0 : Nat), (some 5 : GCRAState))] 0 = some (some 5) := by
  decide

/-- C8 amended: after `cleanup_at` with min_age 0 at time `t`, every key
whose state's `last_touched` is strictly earlier than `t` is contained in
the returned list of removed keys, is no longer present in the map, and
its next check runs the update closure on a fresh default bucket
state. -/
theorem cleanup_expires_stale_keys {K S : Type} [DecidableEq K]
    (lt : S → Option Int) (now : Int) (m : List (K × S)) (t : Int) (k : K) (s : S)
    (hmem : (k, s) ∈ m) (hstale : (lt s).getD now < t) :
    k ∈ (KeyedRateLimiter.cleanup_at lt now m 0 t).1 ∧
    lookupKey (KeyedRateLimiter.cleanup_at lt now m 0 t).2 k = none ∧
    (∀ (R : Type) (defaultState : S) (update : S → R × Option S),
      (checkAndUpdateKey defaultState (KeyedRateLimiter.cleanup_at lt now m 0 t).2 k update).1
        = (update defaultState).1) := by
  have hk : k ∈ (KeyedRateLimiter.cleanup_at lt now m 0 t).1 := by
    simp only [KeyedRateLimiter.cleanup_at]
    refine List.mem_map.mpr ⟨(k, s), ?_, rfl⟩
    refine List.mem_filter.mpr ⟨hmem, ?_⟩
    simpa using hstale
  have hnone : lookupKey (KeyedRateLimiter.cleanup_at lt now m 0 t).2 k = none := by
    have hk2 := hk
    simp only [KeyedRateLimiter.cleanup_at] at hk2 ⊢
    exact lookupKey_filter_not_mem _ _ _ hk2
  refine ⟨hk, hnone, fun R defaultState update => ?_⟩
  simp only [checkAndUpdateKey, hnone]

/-- Witness for C8: a key with `last_touched = 5 < 6` is removed by a
cleanup at time 6, is gone from the map, and its next GCRA check behaves
exactly as on a fresh bucket. -/
theorem cleanup_expires_witness :
    (0 : Nat) ∈ (KeyedRateLimiter.cleanup_at GCRA.last_touched 99
        [((0 : Nat), (some 5 : GCRAState))] 0 6).1 ∧
    lookupKey (KeyedRateLimiter.cleanup_at GCRA.last_touched 99
        [((0 : Nat), (some 5 : GCRAState))] 0 6).2 0 = none ∧
    (checkAndUpdateKey (none : GCRAState) (KeyedRateLimiter.cleanup_at GCRA.last_touched 99
        [((0 : Nat), (some 5 : GCRAState))] 0 6).2 0
        (fun st => ((GCRA.test_n_and_update ⟨1, 10⟩ st 1 20).1,
                    (GCRA.test_n_and_update ⟨1, 10⟩ st 1 20).2))).1
      = (GCRA.test_n_and_update ⟨1, 10⟩ none 1 20).1 := by
  have h := cleanup_expires_stale_keys GCRA.last_touched 99
    [((0 : Nat), (some 5 : GCRAState))] 6 0 (some 5) (by decide) (by decide)
  exact ⟨h.1, h.2.1, h.2.2 _ (none : GCRAState)
    (fun st => ((GCRA.test_n_and_update ⟨1, 10⟩ st 1 20).1,
                (GCRA.test_n_and_update ⟨1, 10⟩ st 1 20).2))⟩

/-- Helper: `LeakyBucket::new` always derives a token interval no larger
than the drain time. -/
theorem lb_new_token_interval_le_full (capacity per : Nat) (q : LeakyBucketParams)
    (h : LeakyBucket.new capacity per = Except.ok q) : q.token_interval ≤ q.full := by
  simp only [LeakyBucket.new] at h
  split at h
  · simp at h
  · simp only [Except.ok.injEq] at h
    subst h
    exact Nat.div_le_self per capacity

/-- Helper: a GCRA batch check with `n = 1` either succeeds or reports a
batch of one non-conforming cell. -/
theorem gcra_single_batch_shape (p : GCRAParams) (s : GCRAState) (t0 : Int) :
    (GCRA.test_n_and_update p s 1 t0).1 = Except.ok () ∨
      ∃ nc, (GCRA.test_n_and_update p s 1 t0).1
        = Except.error (.batchNonConforming 1 nc) := by
  simp only [GCRA.test_n_and_update]
  norm_num
  split
  · right
    exact ⟨_, rfl⟩
  · left
    rfl

/-- C9: a GCRA (any parameters) and a leaky bucket constructed by
`LeakyBucket::new` (which enforces cell weight 1 ≤ capacity) never return
`InsufficientCapacity(1)` from `test_n_and_update` with `n = 1`, so the
panic/unreachable self-check branch in `test_and_update`'s default
implementation can never execute. -/
theorem single_cell_never_insufficient_capacity :
    (∀ (p : GCRAParams) (s : GCRAState) (t0 : Int),
      (GCRA.test_n_and_update p s 1 t0).1 ≠ Except.error (.insufficientCapacity 1) ∧
      (GCRA.test_and_update_checked p s t0).isSome = true) ∧
    (∀ (capacity per : Nat) (q : LeakyBucketParams) (s : BucketState) (t0 : Int),
      LeakyBucket.new capacity per = Except.ok q →
      (LeakyBucket.test_n_and_update q s 1 t0).1 ≠ Except.error (.insufficientCapacity 1)) := by
  constructor
  · intro p s t0
    constructor
    · intro h
      rw [gcra_multi_ic_characterization] at h
      omega
    · rcases gcra_single_batch_shape p s t0 with h | ⟨nc, h⟩
      all_goals
        rcases hres : GCRA.test_n_and_update p s 1 t0 with ⟨r1, r2⟩
        rw [hres] at h
        simp only at h
        subst h
        simp [GCRA.test_and_update_checked, hres]
  · intro capacity per q s t0 hnew h
    rw [lb_multi_ic_iff] at h
    have hle := lb_new_token_interval_le_full capacity per q hnew
    omega

/-- Witness for C9: concrete single-cell checks on a GCRA bucket and on
a leaky bucket built for capacity 2 per 10 time units avoid the
insufficient-capacity outcome, and the checked default single-cell path
does not panic. -/
theorem single_cell_witness :
    ((GCRA.test_n_and_update ⟨1, 1⟩ none 1 0).1
        ≠ Except.error (.insufficientCapacity 1) ∧
      (GCRA.test_and_update_checked ⟨1, 1⟩ none 0).isSome = true) ∧
    (LeakyBucket.test_n_and_update ⟨10, 5⟩ ⟨0, none⟩ 1 0).1
        ≠ Except.error (.insufficientCapacity 1) :=
  ⟨single_cell_never_insufficient_capacity.1 ⟨1, 1⟩ none 0,
   single_cell_never_insufficient_capacity.2 2 10 ⟨10, 5⟩ ⟨0, none⟩ 0 (by decide)⟩

end RatelimitMeter
